import Mathlib

/-!
Shallow embedding of the kodemartin/webcrawler library
(src/lib.rs, src/error.rs) together with proofs about its behaviour.

Pure parts of the Rust source (URL parsing as used here, the Page
Store filename mapping, link extraction) become Lean functions; the
asynchronous scheduler loop in `Crawler::run` becomes an explicit
small-step transition system driven by a schedule of select-branch
choices, with the network modelled as a function from URL to fetch
outcome.  Machine integers (`usize`) are modelled as `Nat`, with
checked subtraction wherever the source's subtraction could underflow.
-/

namespace Webcrawler

/-! ## URLs

Model of the external `url` crate as used by the source: `Url::parse`
with no base URL only accepts absolute URLs, i.e. strings that start
with a scheme followed by a colon; an authority part introduced by
`//` yields the host.  Strings with no scheme fail to parse (the
`RelativeUrlWithoutBase` error of the crate).  Equality of URLs is
structural, exactly as in the source (the crate's derived `Eq`).
-/

structure Url where
  scheme : String
  host : Option String
  rest : String
deriving DecidableEq, Repr

def isSchemeChar (c : Char) : Bool :=
  c.isAlphanum || c == '+' || c == '-' || c == '.'

/-- Split a character list into a scheme and the remainder after the
colon; fails when no colon terminates a run of scheme characters. -/
def takeScheme : List Char → Option (List Char × List Char)
  | [] => none
  | c :: cs =>
    if c == ':' then some ([], cs)
    else if isSchemeChar c then (takeScheme cs).map (fun p => (c :: p.1, p.2)) else none

def Url.parse (s : String) : Option Url :=
  match takeScheme s.toList with
  | none => none
  | some (sch, afterColon) =>
    match sch with
    | [] => none
    | c0 :: _ =>
      if c0.isAlpha then
        match afterColon with
        | '/' :: '/' :: r =>
          let hostChars := r.takeWhile (fun c => c != '/' && c != '?' && c != '#')
          let restChars := r.dropWhile (fun c => c != '/' && c != '?' && c != '#')
          if hostChars.isEmpty then none
          else some ⟨String.mk (sch.map Char.toLower), some (String.mk hostChars),
                     String.mk restChars⟩
        | r => some ⟨String.mk (sch.map Char.toLower), none, String.mk r⟩
      else none

/-- Serialization of a parsed URL (`url::Url::as_str`). -/
def Url.toString (u : Url) : String :=
  u.scheme ++ ":" ++ (match u.host with | some h => "//" ++ h | none => "") ++ u.rest

/-! ## Errors (src/error.rs) -/

inductive CrawlerError where
  | urlSend
  | noUrlHost
  | urlParse
  | reqwest
  | io
deriving DecidableEq, Repr

/-! ## SHA-1 and hex encoding

Model of the external `sha1` and `hex` crates used by
`Storage::url_to_path`: the standard SHA-1 digest over a byte list
(bytes as `Nat` values below 256, words as `Nat` reduced mod 2^32) and
lowercase hex encoding.
-/

def w32 (n : Nat) : Nat := n % 4294967296

def rotl (k n : Nat) : Nat := w32 ((n <<< k) ||| (n >>> (32 - k)))

def chunksOfAux (k : Nat) : Nat → List Nat → List (List Nat)
  | 0, _ => []
  | _, [] => []
  | fuel + 1, l => l.take k :: chunksOfAux k fuel (l.drop k)

def chunksOf (k : Nat) (l : List Nat) : List (List Nat) := chunksOfAux k l.length l

def wordBE (bs : List Nat) : Nat :=
  match bs with
  | [b0, b1, b2, b3] => b0 * 16777216 + b1 * 65536 + b2 * 256 + b3
  | _ => 0

def be32 (n : Nat) : List Nat := [n / 16777216 % 256, n / 65536 % 256, n / 256 % 256, n % 256]

def be64 (n : Nat) : List Nat :=
  [n / 72057594037927936 % 256, n / 281474976710656 % 256, n / 1099511627776 % 256,
   n / 4294967296 % 256, n / 16777216 % 256, n / 65536 % 256, n / 256 % 256, n % 256]

/-- SHA-1 message padding: a 1-bit (byte 0x80), zeros up to 56 mod 64,
then the bit length as a 64-bit big-endian integer. -/
def sha1Pad (msg : List Nat) : List Nat :=
  msg ++ 128 :: List.replicate ((55 + 64 - msg.length % 64) % 64) 0 ++ be64 (8 * msg.length)

/-- Extend 16 message-schedule words to 80. -/
def schedW (w16 : Array Nat) : Array Nat :=
  (List.range 64).foldl
    (fun a _ =>
      let n := a.size
      a.push (rotl 1 ((a.getD (n - 3) 0) ^^^ (a.getD (n - 8) 0) ^^^
        (a.getD (n - 14) 0) ^^^ (a.getD (n - 16) 0))))
    w16

def sha1F (i b c d : Nat) : Nat :=
  if i < 20 then (b &&& c) ||| ((b ^^^ 4294967295) &&& d)
  else if i < 40 then b ^^^ c ^^^ d
  else if i < 60 then (b &&& c) ||| (b &&& d) ||| (c &&& d)
  else b ^^^ c ^^^ d

def sha1K (i : Nat) : Nat :=
  if i < 20 then 1518500249
  else if i < 40 then 1859775393
  else if i < 60 then 2400959708
  else 3395469782

def sha1Round (w : Array Nat) (st : Nat × Nat × Nat × Nat × Nat) (i : Nat) :
    Nat × Nat × Nat × Nat × Nat :=
  match st with
  | (a, b, c, d, e) =>
    (w32 (rotl 5 a + sha1F i b c d + e + sha1K i + w.getD i 0), a, rotl 30 b, c, d)

def sha1Chunk (h : Nat × Nat × Nat × Nat × Nat) (chunk : List Nat) :
    Nat × Nat × Nat × Nat × Nat :=
  let w := schedW ((chunksOf 4 chunk).map wordBE).toArray
  match (List.range 80).foldl (sha1Round w) h with
  | (a, b, c, d, e) =>
    match h with
    | (h0, h1, h2, h3, h4) =>
      (w32 (h0 + a), w32 (h1 + b), w32 (h2 + c), w32 (h3 + d), w32 (h4 + e))

/-- The SHA-1 digest of a byte list, as the list of its 20 bytes. -/
def sha1 (msg : List Nat) : List Nat :=
  match (chunksOf 64 (sha1Pad msg)).foldl sha1Chunk
      (1732584193, 4023233417, 2562383102, 271733878, 3285377520) with
  | (h0, h1, h2, h3, h4) => be32 h0 ++ be32 h1 ++ be32 h2 ++ be32 h3 ++ be32 h4

/-- Lowercase hex digit of a value below 16 (the `hex` crate's alphabet). -/
def hexDigitChar : Nat → Char
  | 0 => '0' | 1 => '1' | 2 => '2' | 3 => '3' | 4 => '4'
  | 5 => '5' | 6 => '6' | 7 => '7' | 8 => '8' | 9 => '9'
  | 10 => 'a' | 11 => 'b' | 12 => 'c' | 13 => 'd' | 14 => 'e'
  | _ => 'f'

def hexEncodeChars (bytes : List Nat) : List Char :=
  bytes.flatMap (fun b => [hexDigitChar (b / 16), hexDigitChar (b % 16)])

def hexEncode (bytes : List Nat) : String := String.mk (hexEncodeChars bytes)

/-- Bytes of a string.  The URLs serialized by the `url` crate are
ASCII (non-ASCII input is percent-encoded or punycoded), so code
points coincide with UTF-8 bytes. -/
def strBytes (s : String) : List Nat := s.toList.map Char.toNat

/-! ## Page Store (struct `Storage`) -/

structure Storage where
  path : String
deriving DecidableEq, Repr

/-- Model of `PathBuf::set_extension` for single-component relative
paths: replace everything after the last dot, if a dot occurs past the
first character, then append a dot and the new extension. -/
def setExtension (p ext : String) : String :=
  let cs := p.toList
  let stem :=
    if '.' ∈ cs.drop 1 then ((cs.reverse.dropWhile (fun c => c != '.')).drop 1).reverse
    else cs
  String.mk (stem ++ '.' :: ext.toList)

/-- `Storage::url_to_path`: hex-encoded SHA-1 of the URL string, with
extension set to `html`.  The `st` receiver is not read by the source
method. -/
def Storage.url_to_path (_st : Storage) (u : Url) : String :=
  setExtension (hexEncode (sha1 (strBytes (Url.toString u)))) "html"

/-- The filename the spec describes for the Page Store: hex-encoded
SHA-1 hash of the URL string with a fixed `.html` extension. -/
def specFilename (u : Url) : String :=
  hexEncode (sha1 (strBytes (Url.toString u))) ++ ".html"

/-- `impl TryFrom<&url::Url> for Storage`: directory named from the
root URL's host and the run's start timestamp (`chrono` wall-clock
time is passed in as the argument `ts`). -/
def Storage.tryFromUrl (ts : Int) (u : Url) : Except CrawlerError Storage :=
  match u.host with
  | none => Except.error CrawlerError.noUrlHost
  | some h => Except.ok ⟨"webpages/" ++ h ++ "_" ++ toString ts⟩

/-! ## Link Extractor (struct `Scraper`)

The external HTML parser (`scraper::Html::parse_document`) is
abstracted: a parsed document is given as the stream of its elements
in markup order, each with a name and an attribute list, exactly the
view `html.select(&selector)` provides to `Scraper::scrape`. -/

structure Element where
  name : String
  attrs : List (String × String)
deriving DecidableEq, Repr

/-- `element.value().attr(k)`: first attribute with the given name. -/
def Element.attr (e : Element) (k : String) : Option String :=
  (e.attrs.find? (fun p => p.fst == k)).map Prod.snd

/-- `Scraper::scrape`: select the `a` elements, keep their `href`
attributes, keep the ones that parse as absolute URLs. -/
def Scraper.scrape (doc : List Element) : List Url :=
  ((doc.filter (fun e => e.name == "a")).filterMap (fun e => e.attr "href")).filterMap
    (fun href => Url.parse href)

/-- The extraction the spec describes: the href attributes of the
anchor elements, in markup order (before URL parsing). -/
def anchorHrefs (doc : List Element) : List String :=
  (doc.filter (fun e => e.name == "a")).filterMap (fun e => e.attr "href")

/-- `Scraper::visit`: fetch the page, persist it, then send every
scraped URL to the scheduler.  The network and the filesystem are
modelled as the arguments `fetchF` (body of the page, or a fetch
error) and `persistOk` (whether `Storage::serialize` succeeds).  The
result is the pair (URLs sent over `tx`, whether `visit` returned
`Ok`); each failing step returns via `?` before the later steps run,
so a failure reports no discoveries. -/
def Scraper.visit (fetchF : Url → Except CrawlerError (List Element))
    (persistOk : Url → Bool) (u : Url) : List Url × Bool :=
  match fetchF u with
  | Except.error _ => ([], false)
  | Except.ok body =>
    if persistOk u then (Scraper.scrape body, true) else ([], false)

/-! ## Frontier scheduler (`Crawler::run`)

The `tokio::select!` loop of `Crawler::run` is modelled as a
transition system.  A `site` function gives each URL's task outcome
(`Ok` with the links it sent, or `Err`).  A schedule (list of
`Choice`) says which enabled select branch fires at each iteration; a
choice whose branch is not enabled is a stutter step.  The field
`admissions` is a history variable recording every `queue_task` call
(most recent first); it is not a variable of the source, it only
serves to state properties about admissions. -/

inductive Outcome where
  | fetched (links : List Url)
  | failed
deriving DecidableEq, Repr

inductive Choice where
  | complete
  | discover
deriving DecidableEq, Repr

structure SchedState where
  visited : List Url
  taskQueue : List Url
  inbox : List Url
  nTasksRemaining : Nat
  nPagesQueued : Nat
  nPagesVisited : Nat
  admissions : List Url
deriving DecidableEq, Repr

/-- One iteration of the select loop.  `Choice.complete` consumes the
next task result from the `FuturesOrdered` queue: on `Ok` it counts
the visit and frees a task slot, on `Err` it decrements
`n_pages_queued` (lines 83 to 86 of src/lib.rs).  `Choice.discover`
pops the discovery inbox under the guard
`n_tasks_remaining > 0 && n_pages_queued < max_pages`: a URL not in
`visited` is admitted (inserted, counted, its task spawned), one
already present is discarded.  `none` signals a branch that is not
enabled. -/
def step (site : Url → Outcome) (maxPages : Nat) (c : Choice) (s : SchedState) :
    Option SchedState :=
  match c with
  | Choice.complete =>
    match s.taskQueue with
    | [] => none
    | u :: rest =>
      match site u with
      | Outcome.fetched links =>
        some { s with
          taskQueue := rest,
          inbox := s.inbox ++ links,
          nTasksRemaining := s.nTasksRemaining + 1,
          nPagesVisited := s.nPagesVisited + 1 }
      | Outcome.failed =>
        some { s with
          taskQueue := rest,
          nPagesQueued := s.nPagesQueued - 1 }
  | Choice.discover =>
    if s.nTasksRemaining > 0 ∧ s.nPagesQueued < maxPages then
      match s.inbox with
      | [] => none
      | u :: rest =>
        if u ∈ s.visited then some { s with inbox := rest }
        else some { s with
          inbox := rest,
          visited := u :: s.visited,
          taskQueue := s.taskQueue ++ [u],
          nTasksRemaining := s.nTasksRemaining - 1,
          nPagesQueued := s.nPagesQueued + 1,
          admissions := u :: s.admissions }
    else none

def stepOr (site : Url → Outcome) (maxPages : Nat) (s : SchedState) (c : Choice) :
    SchedState :=
  (step site maxPages c s).getD s

/-- The loop, driven by a schedule of branch choices. -/
def runLoop (site : Url → Outcome) (maxPages : Nat) (cs : List Choice) (s : SchedState) :
    SchedState :=
  cs.foldl (stepOr site maxPages) s

/-- State right before the loop of `Crawler::run` (lines 66 to 73):
the root URL queued as the first task and inserted into `visited`,
`n_tasks_remaining = max_tasks - 1`, `n_pages_queued = 1`. -/
def initState (root : Url) (nTasksRemaining0 : Nat) : SchedState :=
  { visited := [root], taskQueue := [root], inbox := [],
    nTasksRemaining := nTasksRemaining0, nPagesQueued := 1, nPagesVisited := 0,
    admissions := [root] }

/-- State of a run that aborted before admitting the root. -/
def preState : SchedState :=
  { visited := [], taskQueue := [], inbox := [], nTasksRemaining := 0,
    nPagesQueued := 0, nPagesVisited := 0, admissions := [] }

/-- `usize` subtraction: `none` models the overflow panic of a debug
build (a release build would wrap around instead; either way the
subtraction is unchecked in the source). -/
def checkedSub (a b : Nat) : Option Nat :=
  if b ≤ a then some (a - b) else none

/-! ## The crawler (struct `Crawler`) -/

structure Crawler where
  root_url : Url
  storage : Storage
  visited : List Url
deriving DecidableEq, Repr

/-- `Crawler::new`: parse the root URL first; only then build the
default storage from it when none is supplied.  `ts` stands for the
`chrono` wall-clock timestamp read inside `TryFrom`. -/
def Crawler.new (root_url : String) (storage : Option Storage) (ts : Int) :
    Except CrawlerError Crawler :=
  match Url.parse root_url with
  | none => Except.error CrawlerError.urlParse
  | some u =>
    match storage with
    | some st => Except.ok ⟨u, st, []⟩
    | none =>
      match Storage.tryFromUrl ts u with
      | Except.error e => Except.error e
      | Except.ok st => Except.ok ⟨u, st, []⟩

/-- `Crawler::run`: set up the storage directory (`setupOk` models the
filesystem), compute `max_tasks - 1` with `usize` semantics (`none`
is the panic of a debug build), run the loop over the given schedule,
and return `Ok(())` together with the final internal state.  The
function's `Result` value is the first component; the state is kept
only so that properties can observe the counters. -/
def Crawler.run (c : Crawler) (site : Url → Outcome) (setupOk : Bool)
    (max_tasks max_pages : Nat) (cs : List Choice) :
    Option (Except CrawlerError Unit × SchedState) :=
  if setupOk then
    match checkedSub max_tasks 1 with
    | none => none
    | some r => some (Except.ok (), runLoop site max_pages cs (initState c.root_url r))
  else
    some (Except.error CrawlerError.io, preState)

/-! ## Concrete data for the falsifying runs -/

def rootU : Url := ⟨"http", some "root.example", "/"⟩
def urlA : Url := ⟨"http", some "a.example", "/"⟩
def urlB : Url := ⟨"http", some "b.example", "/"⟩

def theCrawler : Crawler := ⟨rootU, ⟨"webpages/root.example_0"⟩, []⟩

/-- Site where the root links to two pages and page A fails to fetch. -/
def siteC1 : Url → Outcome := fun u =>
  if u = rootU then Outcome.fetched [urlA, urlB]
  else if u = urlA then Outcome.failed
  else Outcome.fetched []

/-- Site where every fetch fails. -/
def siteAllFail : Url → Outcome := fun _ => Outcome.failed

/-- Site where every fetch succeeds with no links. -/
def siteAllOk : Url → Outcome := fun _ => Outcome.fetched []

def schedC1 : List Choice :=
  [Choice.complete, Choice.discover, Choice.complete, Choice.discover]

/-- A page whose single anchor holds an absolute URL. -/
def docX : List Element := [⟨"a", [("href", "http://x.example/")]⟩]

def fetchX : Url → Except CrawlerError (List Element) := fun _ => Except.ok docX

def persistFailAll : Url → Bool := fun _ => false

/-! ## Theorems -/

/-- Claim C3, counterexample: a page is fetched (its one anchor holds
an absolute URL, so links are extractable), persisting fails, and
`visit` reports zero discoveries and an error — refuting that the
links are still extracted and reported. -/
theorem c3_counterexample :
    Scraper.visit fetchX persistFailAll rootU = ([], false)
    ∧ Scraper.scrape docX ≠ [] := by
  exact ⟨rfl, by decide⟩

/-- Claim C3 as amended: if persisting a successfully fetched page
fails, `visit` returns the persist error immediately; the page's links
are not extracted and no discoveries are reported, because
`storage.serialize(...).await?` precedes the scrape-and-send loop. -/
theorem c3_amended (fetchF : Url → Except CrawlerError (List Element))
    (persistOk : Url → Bool) (u : Url) (doc : List Element)
    (h1 : fetchF u = Except.ok doc) (h2 : persistOk u = false) :
    Scraper.visit fetchF persistOk u = ([], false) := by
  unfold Scraper.visit
  rw [h1, h2]
  simp

/-- Witness for `c3_amended` at a concrete page. -/
theorem c3_amended_witness :
    Scraper.visit fetchX persistFailAll rootU = ([], false) :=
  c3_amended fetchX persistFailAll rootU docX rfl rfl

/-- Claim C5: with `max_tasks = 0` the very first counter assignment
`max_tasks - 1` underflows `usize` (modelled by `checkedSub` being
`none`, the overflow panic of a debug build): the value is neither
rejected with an error nor clamped to 1. -/
theorem c5_zero_max_tasks_panics (c : Crawler) (site : Url → Outcome) (mp : Nat)
    (cs : List Choice) :
    Crawler.run c site true 0 mp cs = none := rfl

/-- Claim C6, counterexample: two runs that give different
pages-visited counts (1 and 0) return the very same value `Ok(())`,
so the value returned to the caller carries no summary of pages
visited or failed. -/
theorem c6_counterexample :
    (Crawler.run theCrawler siteAllOk true 2 5 [Choice.complete]).map Prod.fst
      = (Crawler.run theCrawler siteAllFail true 2 5 [Choice.complete]).map Prod.fst
    ∧ (Crawler.run theCrawler siteAllOk true 2 5 [Choice.complete]).map
        (fun p => p.2.nPagesVisited)
      ≠ (Crawler.run theCrawler siteAllFail true 2 5 [Choice.complete]).map
        (fun p => p.2.nPagesVisited) := by
  exact ⟨rfl, by decide⟩

/-- Claim C6 as amended: on successful termination `Crawler::run`
returns `Ok(())` — the unit value, for every site and schedule; the
visited count is only logged and no failure count is returned. -/
theorem c6_amended (c : Crawler) (site : Url → Outcome) (mt mp : Nat)
    (cs : List Choice) :
    (Crawler.run c site true mt mp cs).map Prod.fst
      = (checkedSub mt 1).map (fun _ => (Except.ok () : Except CrawlerError Unit)) := by
  unfold Crawler.run
  cases h : checkedSub mt 1 <;> simp [h]

/-- Claim C7: a root URL string that does not parse makes
`Crawler::new` fail with the URL parse error; the parse is the first
statement of the constructor, so no storage, visited set or task is
built and no fetch can be attempted. -/
theorem c7_invalid_root (root : String) (st : Option Storage) (ts : Int)
    (h : Url.parse root = none) :
    Crawler.new root st ts = Except.error CrawlerError.urlParse := by
  unfold Crawler.new
  rw [h]

/-- Witness for `c7_invalid_root` on a schemeless string. -/
theorem c7_invalid_root_witness :
    Crawler.new "not a url" none 0 = Except.error CrawlerError.urlParse :=
  c7_invalid_root "not a url" none 0 (by decide)

/-- Claim C10: with no explicit storage, a root URL that parses but
has no host makes `Crawler::new` fail with the `NoUrlHost` error of
`TryFrom<&url::Url> for Storage`, before any crawling begins. -/
theorem c10_no_host (root : String) (u : Url) (ts : Int)
    (h1 : Url.parse root = some u) (h2 : u.host = none) :
    Crawler.new root none ts = Except.error CrawlerError.noUrlHost := by
  simp [Crawler.new, Storage.tryFromUrl, h1, h2]

/-- Witness for `c10_no_host` on a data URL. -/
theorem c10_no_host_witness :
    Crawler.new "data:text/plain,hi" none 0 = Except.error CrawlerError.noUrlHost :=
  c10_no_host "data:text/plain,hi" ⟨"data", none, "text/plain,hi"⟩ 0 (by decide) rfl

/-- Admission invariant: no URL was admitted twice, and every admitted
URL is recorded in the visited set. -/
def AdmInv (s : SchedState) : Prop :=
  s.admissions.Nodup ∧ ∀ u ∈ s.admissions, u ∈ s.visited

theorem admInv_step (site : Url → Outcome) (mp : Nat) (c : Choice) (s : SchedState)
    (h : AdmInv s) : AdmInv (stepOr site mp s c) := by
  obtain ⟨h1, h2⟩ := h
  cases c with
  | complete =>
    cases hq : s.taskQueue with
    | nil =>
      simp only [stepOr, step, hq, Option.getD]
      exact ⟨h1, h2⟩
    | cons u rest =>
      cases hs : site u with
      | fetched links =>
        simp only [stepOr, step, hq, hs, Option.getD]
        exact ⟨h1, h2⟩
      | failed =>
        simp only [stepOr, step, hq, hs, Option.getD]
        exact ⟨h1, h2⟩
  | discover =>
    by_cases hg : s.nTasksRemaining > 0 ∧ s.nPagesQueued < mp
    · cases hi : s.inbox with
      | nil =>
        simp only [stepOr, step, hi, if_pos hg, Option.getD]
        exact ⟨h1, h2⟩
      | cons u rest =>
        by_cases hv : u ∈ s.visited
        · simp only [stepOr, step, hi, if_pos hg, if_pos hv, Option.getD]
          exact ⟨h1, h2⟩
        · simp only [stepOr, step, hi, if_pos hg, if_neg hv, Option.getD]
          refine ⟨List.nodup_cons.mpr ⟨fun hm => hv (h2 u hm), h1⟩, ?_⟩
          intro v hv2
          rcases List.mem_cons.mp hv2 with rfl | hv3
          · exact List.mem_cons_self _ _
          · exact List.mem_cons_of_mem _ (h2 v hv3)
    · simp only [stepOr, step, if_neg hg, Option.getD]
      exact ⟨h1, h2⟩

theorem admInv_runLoop (site : Url → Outcome) (mp : Nat) (cs : List Choice) :
    ∀ s : SchedState, AdmInv s → AdmInv (runLoop site mp cs s) := by
  induction cs with
  | nil => exact fun s h => h
  | cons c cs ih => exact fun s h => ih _ (admInv_step site mp c s h)

/-- Claim C4: over every site and every schedule of select-branch
interleavings, the list of URLs ever admitted (handed to
`queue_task`, the root included) has no duplicate: a URL is admitted
at most once, since admission inserts it into `visited` and the
admission check discards URLs already present. -/
theorem c4_admitted_at_most_once (site : Url → Outcome) (mp : Nat) (cs : List Choice)
    (root : Url) (r : Nat) :
    ((runLoop site mp cs (initState root r)).admissions).Nodup :=
  (admInv_runLoop site mp cs (initState root r)
    ⟨by simp [initState], by simp [initState]⟩).1

theorem pagesQueued_le_step (site : Url → Outcome) (mp : Nat) (c : Choice)
    (s : SchedState) (h : s.nPagesQueued ≤ mp) :
    (stepOr site mp s c).nPagesQueued ≤ mp := by
  cases c with
  | complete =>
    cases hq : s.taskQueue with
    | nil =>
      simp only [stepOr, step, hq, Option.getD]
      exact h
    | cons u rest =>
      cases hs : site u with
      | fetched links =>
        simp only [stepOr, step, hq, hs, Option.getD]
        exact h
      | failed =>
        simp only [stepOr, step, hq, hs, Option.getD]
        exact Nat.le_trans (Nat.sub_le _ _) h
  | discover =>
    by_cases hg : s.nTasksRemaining > 0 ∧ s.nPagesQueued < mp
    · cases hi : s.inbox with
      | nil =>
        simp only [stepOr, step, hi, if_pos hg, Option.getD]
        exact h
      | cons u rest =>
        by_cases hv : u ∈ s.visited
        · simp only [stepOr, step, hi, if_pos hg, if_pos hv, Option.getD]
          exact h
        · simp only [stepOr, step, hi, if_pos hg, if_neg hv, Option.getD]
          exact hg.2
    · simp only [stepOr, step, if_neg hg, Option.getD]
      exact h

theorem pagesQueued_le_runLoop (site : Url → Outcome) (mp : Nat) (cs : List Choice) :
    ∀ s : SchedState, s.nPagesQueued ≤ mp → (runLoop site mp cs s).nPagesQueued ≤ mp := by
  induction cs with
  | nil => exact fun s h => h
  | cons c cs ih => exact fun s h => ih _ (pagesQueued_le_step site mp c s h)

/-- Claim C1, counterexample: `max_pages = 2`, yet with a site whose
root links to two pages and whose page A fails to fetch, the schedule
complete/discover/complete/discover admits 3 URLs in total (root, A
and B): the failure of A decremented `n_pages_queued`, freeing a page
slot for B.  This refutes that the total number of URLs ever admitted
is bounded by `maxPages` and that a fetch failure never decrements the
admission counter. -/
theorem c1_counterexample :
    ((Crawler.run theCrawler siteC1 true 3 2 schedC1).map
      (fun p => p.2.admissions.length)) = some 3 ∧ ¬ (3 ≤ 2) := by
  exact ⟨rfl, by decide⟩

/-- Claim C1 as amended: what never exceeds `maxPages` is the live
counter `n_pages_queued` (admissions minus observed fetch failures);
a fetch failure decrements it, so failed fetches do free page slots
and the total ever admitted can exceed `maxPages`. -/
theorem c1_amended (site : Url → Outcome) (mp : Nat) (cs : List Choice) (root : Url)
    (r : Nat) (h : 1 ≤ mp) :
    (runLoop site mp cs (initState root r)).nPagesQueued ≤ mp :=
  pagesQueued_le_runLoop site mp cs (initState root r) h

/-- Witness for `c1_amended` at `maxPages = 1`. -/
theorem c1_amended_witness :
    (runLoop siteAllFail 1 [Choice.complete] (initState rootU 0)).nPagesQueued ≤ 1 :=
  c1_amended siteAllFail 1 [Choice.complete] rootU 0 (by decide)

/-- Claim C2, counterexample: with `max_tasks = 2` and a root whose
fetch fails, after the completion of the root task there is no task in
flight (`taskQueue` empty) yet `n_tasks_remaining` is still 1, not 2:
the failure arm did not free the concurrency slot the root consumed
(it decremented `n_pages_queued` instead). -/
theorem c2_counterexample :
    ((Crawler.run theCrawler siteAllFail true 2 5 [Choice.complete]).map
      (fun p => (p.2.taskQueue.length, p.2.nTasksRemaining))) = some (0, 1)
    ∧ (1 : Nat) ≠ 2 := by
  exact ⟨rfl, by decide⟩

/-- Claim C2 as amended: when a task completes with `Ok`, the
scheduler frees the concurrency slot (`n_tasks_remaining` grows by
one); when it completes with `Err`, the slot is not freed —
`n_tasks_remaining` is unchanged and `n_pages_queued` is decremented
instead, so a failed fetch permanently consumes a concurrency slot. -/
theorem c2_amended (site : Url → Outcome) (mp : Nat) (s : SchedState) (u : Url)
    (rest : List Url) (h : s.taskQueue = u :: rest) :
    (∀ links, site u = Outcome.fetched links →
      (stepOr site mp s Choice.complete).nTasksRemaining = s.nTasksRemaining + 1)
    ∧ (site u = Outcome.failed →
      (stepOr site mp s Choice.complete).nTasksRemaining = s.nTasksRemaining
      ∧ (stepOr site mp s Choice.complete).nPagesQueued = s.nPagesQueued - 1) := by
  constructor
  · intro links hl
    simp [stepOr, step, h, hl]
  · intro hl
    constructor <;> simp [stepOr, step, h, hl]

/-- Witness for `c2_amended`: the failed root task leaves
`n_tasks_remaining` untouched and decrements `n_pages_queued`. -/
theorem c2_amended_witness :
    (stepOr siteAllFail 5 (initState rootU 1) Choice.complete).nTasksRemaining
      = (initState rootU 1).nTasksRemaining
    ∧ (stepOr siteAllFail 5 (initState rootU 1) Choice.complete).nPagesQueued
      = (initState rootU 1).nPagesQueued - 1 :=
  (c2_amended siteAllFail 5 (initState rootU 1) rootU [] rfl).2 rfl

theorem hexDigitChar_ne_dot (n : Nat) : hexDigitChar n ≠ '.' := by
  unfold hexDigitChar
  split <;> decide

theorem dot_not_mem_hexEncodeChars (bs : List Nat) : '.' ∉ hexEncodeChars bs := by
  intro hmem
  simp only [hexEncodeChars, List.mem_flatMap] at hmem
  obtain ⟨b, _, hc⟩ := hmem
  simp only [List.mem_cons, List.not_mem_nil, or_false] at hc
  rcases hc with hc | hc <;> exact hexDigitChar_ne_dot _ hc.symm

theorem strToList_mk (l : List Char) : (String.mk l).toList = l := rfl

theorem setExtension_append (l : List Char) (hl : '.' ∉ l) (ext : String) :
    setExtension (String.mk l) ext = String.mk (l ++ '.' :: ext.toList) := by
  have hd : '.' ∉ l.drop 1 := fun hmem => hl (List.mem_of_mem_drop hmem)
  simp only [setExtension, strToList_mk]
  rw [if_neg hd]

theorem url_to_path_eq_specFilename (st : Storage) (u : Url) :
    Storage.url_to_path st u = specFilename u := by
  unfold Storage.url_to_path specFilename hexEncode
  rw [setExtension_append _ (dot_not_mem_hexEncodeChars _) "html"]
  rfl

/-- Claim C8: the Page Store filename is a function of the URL string
alone — it does not read the storage state — and equals the
hex-encoded SHA-1 hash of the URL string with the fixed extension
`.html`; equal URLs therefore always map to the same filename. -/
theorem c8_url_to_path_pure (st1 st2 : Storage) (u : Url) :
    Storage.url_to_path st1 u = Storage.url_to_path st2 u
    ∧ Storage.url_to_path st1 u = specFilename u :=
  ⟨rfl, url_to_path_eq_specFilename st1 u⟩

/-- Claim C9: link extraction is a pure total function that returns
exactly the href attributes of the anchor elements that parse as
absolute URLs, in markup order (`anchorHrefs` lists the hrefs of the
`a` elements in document order; `scrape` is its parse-filtered image,
malformed hrefs silently dropped). -/
theorem c9_scrape_exact (doc : List Element) :
    Scraper.scrape doc = (anchorHrefs doc).filterMap Url.parse
    ∧ ∀ u : Url, u ∈ Scraper.scrape doc ↔
        ∃ href ∈ anchorHrefs doc, Url.parse href = some u := by
  refine ⟨rfl, fun u => ?_⟩
  simp only [Scraper.scrape, anchorHrefs, List.mem_filterMap]

end Webcrawler
